import Mathlib

/-!
Verification of `make_standard_sdf.py`: a helper that patches SDF-like
molecule blocks from MoNA into standard SDF records, and a driver that
loads records, patches each one and writes them to an output file.
-/

namespace MakeStandardSdf

/-- Whether `needle` occurs as a contiguous run inside `hay`. -/
def charsContain (needle : List Char) : List Char → Bool
  | [] => needle.isPrefixOf []
  | c :: rest => needle.isPrefixOf (c :: rest) || charsContain needle rest

/-- Boolean substring test on strings, modelling Python's `needle in line`. -/
def strContains (line needle : String) : Bool :=
  charsContain needle.data line.data

/-- `"V2000" in line`: the line carries the atom/bond-count marker. -/
def isV2000 (line : String) : Bool :=
  strContains line "V2000"

/-- `">  <NAME>" in line`: the line carries the name-metadata marker. -/
def isNameMeta (line : String) : Bool :=
  strContains line ">  <NAME>"

/-- Embedding of `_make_chunk_from_block`: walk the block line by line;
a line containing `V2000` is preceded by `'\r'`, otherwise a line
containing `>  <NAME>` is preceded by `'M  END'`, all other lines are
copied through. -/
def make_chunk_from_block : List String → List String
  | [] => []
  | line :: rest =>
    if isV2000 line then
      "\r" :: line :: make_chunk_from_block rest
    else if isNameMeta line then
      "M  END" :: line :: make_chunk_from_block rest
    else
      line :: make_chunk_from_block rest

/-- Number of marker lines in a block: lines containing either trigger
substring. -/
def markerCount (block : List String) : Nat :=
  (block.filter (fun l => isV2000 l || isNameMeta l)).length

example : make_chunk_from_block ["V2000"] = ["\r", "V2000"] := by decide
example : make_chunk_from_block [">  <NAME>"] = ["M  END", ">  <NAME>"] := by decide
example : make_chunk_from_block ["a", "b"] = ["a", "b"] := by decide
example : isV2000 "foo V2000 bar" = true := by decide
example : isNameMeta ">  <NAME> V2000" = true := by decide

/-- File open mode, as passed to `_write_chunk_to_file`: `w` is
create/truncate, `a` is append. -/
inductive Mode
  | w
  | a
deriving DecidableEq

/-- The text the loop body of `_write_chunk_to_file` emits for one chunk:
`writer.write('%s\n' % line)` for each line, in order. -/
def render_chunk (chunk : List String) : String :=
  chunk.foldl (fun acc line => acc ++ (line ++ "\n")) ""

/-- Embedding of `_write_chunk_to_file`: the contents of the file at
`save_to_path` before and after the call.  `none` means the file does not
exist; mode `w` truncates (or creates), mode `a` appends (creating the
file when absent). -/
def write_chunk_to_file (contents : Option String) (chunk : List String)
    (mode : Mode) : Option String :=
  match mode with
  | Mode.w => some (render_chunk chunk)
  | Mode.a => some (contents.getD "" ++ render_chunk chunk)

/-- Embedding of the write loop of `convert_sdflike_to_sdf`:
`for index, chunk in enumerate(chunk_list)`, writing with mode `w` when
`index == 0` and mode `a` otherwise. -/
def write_loop (st : Option String) (index : Nat) :
    List (List String) → Option String
  | [] => st
  | chunk :: rest =>
    if index = 0 then
      write_loop (write_chunk_to_file st chunk Mode.w) (index + 1) rest
    else
      write_loop (write_chunk_to_file st chunk Mode.a) (index + 1) rest

/-- Embedding of the loop that builds `chunk_list`: one
`_make_chunk_from_block` result appended per loaded record, in order. -/
def chunk_list (records : List (List String)) : List (List String) :=
  records.foldl (fun acc block => acc ++ [make_chunk_from_block block]) []

/-- POSIX `os.path.split`: split after the last slash, then strip
trailing slashes from the head unless the head is all slashes. -/
def path_split (p : String) : String × String :=
  let cs := p.data
  let tail := (cs.reverse.takeWhile (fun c => c ≠ '/')).reverse
  let headRaw := cs.take (cs.length - tail.length)
  let head :=
    if headRaw.any (fun c => c ≠ '/') then
      (headRaw.reverse.dropWhile (fun c => c = '/')).reverse
    else headRaw
  (String.mk head, String.mk tail)

/-- POSIX `os.path.join` on two components. -/
def path_join (a b : String) : String :=
  if b.data.headD ' ' = '/' then b
  else if a = "" ∨ a.data.getLastD ' ' = '/' then a ++ b
  else a ++ "/" ++ b

example : path_split "testdata/MONA_2_mend.sdf" = ("testdata", "MONA_2_mend.sdf") := by decide
example : path_split "MONA_2_mend.sdf" = ("", "MONA_2_mend.sdf") := by decide
example : path_split "/a//b.sdf" = ("/a", "b.sdf") := by decide
example : path_join "/tmp/out" "x.sdf" = "/tmp/out/x.sdf" := by decide
example : path_join "" "x.sdf" = "x.sdf" := by decide
example : path_join "/tmp/" "x.sdf" = "/tmp/x.sdf" := by decide

/-- What a run of `convert_sdflike_to_sdf` produces: the output path, the
final contents of the file at that path, and the molecule count reported
in the closing log message. -/
structure DriverResult where
  save_sdf_to_path : String
  file : Option String
  num_molecule : Nat
deriving DecidableEq

/-- Embedding of `convert_sdflike_to_sdf`.  The loader (RDKit's
`SDMolSupplier` with `GetItemText`/`strip`/`splitlines`) is external
code, so it enters as the list `records` of loaded blocks; `initial` is
the prior contents of the output file (`none` when absent). -/
def convert_sdflike_to_sdf (unprocessed_sdf_name : String)
    (output_dir : String) (records : List (List String))
    (initial : Option String) : DriverResult :=
  let chunks := chunk_list records
  let sdf_name := (path_split unprocessed_sdf_name).2
  let save_sdf_to_path := path_join output_dir ("converted_" ++ sdf_name)
  { save_sdf_to_path := save_sdf_to_path
    file := write_loop initial 0 chunks
    num_molecule := records.length }

/-- Concatenation of a list of strings, in order. -/
def concat_strings : List String → String
  | [] => ""
  | s :: rest => s ++ concat_strings rest

theorem make_chunk_append (xs ys : List String) :
    make_chunk_from_block (xs ++ ys) =
      make_chunk_from_block xs ++ make_chunk_from_block ys := by
  induction xs with
  | nil => rfl
  | cons line rest ih =>
    cases hV : isV2000 line <;> cases hN : isNameMeta line <;>
      simp [make_chunk_from_block, hV, hN, ih]

theorem length_make_chunk (b : List String) :
    (make_chunk_from_block b).length = b.length + markerCount b := by
  induction b with
  | nil => rfl
  | cons line rest ih =>
    cases hV : isV2000 line <;> cases hN : isNameMeta line <;>
      simp [make_chunk_from_block, markerCount, List.filter_cons, hV, hN] at * <;>
      omega

theorem markerCount_make_chunk (b : List String) :
    markerCount (make_chunk_from_block b) = markerCount b := by
  induction b with
  | nil => rfl
  | cons line rest ih =>
    cases hV : isV2000 line <;> cases hN : isNameMeta line <;>
      simp [make_chunk_from_block, markerCount, List.filter_cons, hV, hN,
        (by decide : isV2000 "\r" = false),
        (by decide : isNameMeta "\r" = false),
        (by decide : isV2000 "M  END" = false),
        (by decide : isNameMeta "M  END" = false)] at * <;>
      omega

/-- C1 (counterexample): on the block whose single line contains `V2000`,
the inserted separator line is not the empty string; the patcher inserts
the one-character carriage-return string instead. -/
theorem c1_sep_not_empty_cex :
    make_chunk_from_block ["V2000"] ≠ ["", "V2000"] ∧
    make_chunk_from_block ["V2000"] = ["\r", "V2000"] := by
  decide

/-- C1 (amended): immediately before every line containing `V2000` the
patcher inserts a separator line, the triggering line itself and the rest
of the block are preserved, and the inserted separator is the
one-character carriage-return string `"\r"` (not the empty string). -/
theorem c1_v2000_separator_insertion (xs ys : List String) (line : String)
    (h : isV2000 line = true) :
    make_chunk_from_block (xs ++ line :: ys) =
      make_chunk_from_block xs ++ "\r" :: line :: make_chunk_from_block ys := by
  rw [make_chunk_append]
  simp [make_chunk_from_block, h]

/-- C1 (witness): the amended insertion rule at a concrete block. -/
theorem c1_v2000_separator_insertion_witness :
    make_chunk_from_block (["line1"] ++ "  6  6  0  0  0  0  0  0  0  0999 V2000" :: ["line3"]) =
      make_chunk_from_block ["line1"] ++
        "\r" :: "  6  6  0  0  0  0  0  0  0  0999 V2000" :: make_chunk_from_block ["line3"] :=
  c1_v2000_separator_insertion ["line1"] ["line3"]
    "  6  6  0  0  0  0  0  0  0  0999 V2000" (by decide)

/-- C2 (counterexample): a line containing both `>  <NAME>` and `V2000`
takes the `V2000` branch of the if/elif, so no `M  END` is inserted
before it. -/
theorem c2_name_with_v2000_cex :
    make_chunk_from_block [">  <NAME> V2000"] = ["\r", ">  <NAME> V2000"] ∧
    "M  END" ∉ make_chunk_from_block [">  <NAME> V2000"] := by
  decide

/-- C2 (amended): immediately before every line containing `>  <NAME>`
and not containing `V2000` (the `V2000` branch takes precedence), the
patcher inserts the line `M  END`, preserving the triggering line and the
rest of the block. -/
theorem c2_name_mend_insertion (xs ys : List String) (line : String)
    (hN : isNameMeta line = true) (hV : isV2000 line = false) :
    make_chunk_from_block (xs ++ line :: ys) =
      make_chunk_from_block xs ++ "M  END" :: line :: make_chunk_from_block ys := by
  rw [make_chunk_append]
  simp [make_chunk_from_block, hN, hV]

/-- C2 (witness): the amended insertion rule at a concrete block. -/
theorem c2_name_mend_insertion_witness :
    make_chunk_from_block (["line1"] ++ ">  <NAME>" :: ["line3"]) =
      make_chunk_from_block ["line1"] ++
        "M  END" :: ">  <NAME>" :: make_chunk_from_block ["line3"] :=
  c2_name_mend_insertion ["line1"] ["line3"] ">  <NAME>" (by decide) (by decide)

/-- C3 (counterexample): a block with three marker lines gets three
insertions, so the per-record insertion count `k` is not always in
`{0,1,2}`. -/
theorem c3_marker_bound_cex :
    markerCount ["V2000", "V2000", "V2000"] ∉ [0, 1, 2] ∧
    (make_chunk_from_block ["V2000", "V2000", "V2000"]).length =
      (["V2000", "V2000", "V2000"] : List String).length +
        markerCount ["V2000", "V2000", "V2000"] := by
  decide

/-- C3 (amended): for every record `R`, `len(patch(R)) = len(R) + k`
where `k` is the number of lines of `R` containing either marker
substring; every matching line receives its own insertion, so `k` lies in
`{0,1,2}` only for records with at most two marker lines, not in
general. -/
theorem c3_patched_length (R : List String) :
    (make_chunk_from_block R).length = R.length + markerCount R :=
  length_make_chunk R

/-- C4: a block none of whose lines contains either marker substring is
returned unchanged. -/
theorem c4_marker_free_identity (R : List String)
    (h : ∀ l ∈ R, isV2000 l = false ∧ isNameMeta l = false) :
    make_chunk_from_block R = R := by
  induction R with
  | nil => rfl
  | cons line rest ih =>
    have hline := h line (List.mem_cons_self line rest)
    have hrest : ∀ l ∈ rest, isV2000 l = false ∧ isNameMeta l = false :=
      fun l hl => h l (List.mem_cons_of_mem line hl)
    simp [make_chunk_from_block, hline.1, hline.2, ih hrest]

/-- C4 (witness): identity on a concrete marker-free block. -/
theorem c4_marker_free_identity_witness :
    make_chunk_from_block ["CH4", "  1  2  1  0"] = ["CH4", "  1  2  1  0"] :=
  c4_marker_free_identity ["CH4", "  1  2  1  0"] (by decide)

/-- C5: the original block is a sublist of the patched chunk: every
original line appears, unaltered and in its original relative order; the
patcher only inserts, never removes or edits. -/
theorem c5_block_sublist_chunk (R : List String) :
    List.Sublist R (make_chunk_from_block R) := by
  induction R with
  | nil => exact List.Sublist.slnil
  | cons line rest ih =>
    cases hV : isV2000 line <;> cases hN : isNameMeta line <;>
      simp [make_chunk_from_block, hV, hN] <;>
      first
        | exact ih
        | exact List.Sublist.cons₂ line ih
        | exact List.Sublist.cons _ (List.Sublist.cons₂ line ih)

/-- C6: neither inserted line (`"\r"` and `"M  END"`) contains either
trigger substring, and the patched chunk has exactly the same number of
marker lines as the original block: a second pass over `patch(R)` is
anchored only on the original marker lines of `R`, never on a line the
patcher itself inserted. -/
theorem c6_inserted_lines_inert (R : List String) :
    (isV2000 "\r" = false ∧ isNameMeta "\r" = false ∧
      isV2000 "M  END" = false ∧ isNameMeta "M  END" = false) ∧
    markerCount (make_chunk_from_block R) = markerCount R ∧
    (make_chunk_from_block (make_chunk_from_block R)).length =
      (make_chunk_from_block R).length + markerCount R := by
  refine ⟨by decide, markerCount_make_chunk R, ?_⟩
  rw [length_make_chunk, markerCount_make_chunk]

theorem chunk_list_eq_map (records : List (List String)) :
    chunk_list records = records.map make_chunk_from_block := by
  have key : ∀ (rs : List (List String)) (acc : List (List String)),
      rs.foldl (fun acc block => acc ++ [make_chunk_from_block block]) acc =
        acc ++ rs.map make_chunk_from_block := by
    intro rs
    induction rs with
    | nil => intro acc; simp
    | cons r rest ih => intro acc; simp [List.foldl_cons, ih]
  simpa using key records []

theorem write_loop_pos (chunks : List (List String)) :
    ∀ (n : Nat) (s : String), n ≠ 0 →
      write_loop (some s) n chunks =
        some (s ++ concat_strings (chunks.map render_chunk)) := by
  induction chunks with
  | nil =>
    intro n s hn
    simp [write_loop, concat_strings, String.append_empty]
  | cons c rest ih =>
    intro n s hn
    simp only [write_loop, hn, if_neg hn, write_chunk_to_file, Option.getD]
    rw [ih (n + 1) (s ++ render_chunk c) (Nat.succ_ne_zero n)]
    simp [concat_strings, String.append_assoc]

/-- C7: the driver produces exactly one chunk per loaded record, in input
order: the chunk list has the same length as the record list, and its
`i`-th entry is the patch of the `i`-th record. -/
theorem c7_one_chunk_per_record (records : List (List String)) :
    (chunk_list records).length = records.length ∧
    ∀ i : Nat, (chunk_list records)[i]? =
      (records[i]?).map make_chunk_from_block := by
  rw [chunk_list_eq_map]
  exact ⟨List.length_map records make_chunk_from_block,
    fun i => List.getElem?_map make_chunk_from_block records i⟩

/-- C8: when at least one record is loaded, the output file ends up being
exactly the concatenation, in input-record order, of the patched chunks,
each rendered as its lines each followed by a newline — the first chunk
written in create/truncate mode and the rest in append mode. -/
theorem c8_output_is_ordered_concat (p d : String)
    (records : List (List String)) (initial : Option String)
    (h : records ≠ []) :
    (convert_sdflike_to_sdf p d records initial).file =
      some (concat_strings
        (records.map (fun r => render_chunk (make_chunk_from_block r)))) := by
  obtain ⟨r, rest, rfl⟩ := List.exists_cons_of_ne_nil h
  show write_loop initial 0 (chunk_list (r :: rest)) = _
  rw [chunk_list_eq_map]
  simp only [List.map_cons, write_loop, reduceIte, write_chunk_to_file]
  rw [write_loop_pos (rest.map make_chunk_from_block) 1
    (render_chunk (make_chunk_from_block r)) (Nat.succ_ne_zero 0)]
  simp only [concat_strings, List.map_map]
  rfl

/-- C8 (witness): the concatenation law at a concrete two-record run. -/
theorem c8_output_is_ordered_concat_witness :
    (convert_sdflike_to_sdf "in.sdf" "/tmp/out" [["a"], ["b"]] none).file =
      some (concat_strings
        ([["a"], ["b"]].map (fun r => render_chunk (make_chunk_from_block r)))) :=
  c8_output_is_ordered_concat "in.sdf" "/tmp/out" [["a"], ["b"]] none (by decide)

/-- C10: when the loader returns zero records, the write loop never runs,
so the file at the output path keeps its prior contents (in particular no
file is created when none existed), while the log still reports zero
molecules. -/
theorem c10_empty_loader_no_write (p d : String) (initial : Option String) :
    (convert_sdflike_to_sdf p d [] initial).file = initial ∧
    (convert_sdflike_to_sdf p d [] initial).num_molecule = 0 :=
  ⟨rfl, rfl⟩

theorem takeWhile_all_append {p : Char → Bool} (l1 : List Char) (x : Char)
    (l2 : List Char) (h : ∀ c ∈ l1, p c = true) (hx : p x = false) :
    (l1 ++ x :: l2).takeWhile p = l1 := by
  induction l1 with
  | nil => simp [List.takeWhile_cons, hx]
  | cons a t ih =>
    have ha := h a (List.mem_cons_self a t)
    have ht : ∀ c ∈ t, p c = true := fun c hc => h c (List.mem_cons_of_mem a hc)
    simp [List.takeWhile_cons, ha, ih ht]

theorem path_split_snd (dir name : String) (h : ∀ c ∈ name.data, c ≠ '/') :
    (path_split (dir ++ "/" ++ name)).2 = name := by
  obtain ⟨nd⟩ := name
  show String.mk
    ((((dir ++ "/" ++ String.mk nd).data).reverse.takeWhile
      (fun c => c ≠ '/')).reverse) = String.mk nd
  have hdata : (dir ++ "/" ++ String.mk nd).data = dir.data ++ '/' :: nd := by
    rw [String.data_append, String.data_append,
      (by decide : ("/" : String).data = ['/'])]
    simp
  rw [hdata, List.reverse_append, List.reverse_cons,
    List.append_assoc, List.singleton_append]
  rw [takeWhile_all_append nd.reverse '/' dir.data.reverse
    (fun c hc => by
      simp only [decide_eq_true_eq]
      exact h c (List.mem_reverse.mp hc))
    (by decide)]
  rw [List.reverse_reverse]

theorem path_join_no_slash (d b : String) (hb : b.data.headD ' ' ≠ '/')
    (hd0 : d ≠ "") (hd1 : d.data.getLastD ' ' ≠ '/') :
    path_join d b = d ++ "/" ++ b := by
  unfold path_join
  rw [if_neg hb, if_neg (by push_neg; exact ⟨hd0, hd1⟩)]

/-- C9: the driver writes to the output directory joined with the base
name of the input file prefixed by `converted_`; for an input under some
directory, `.../MONA_2_mend.sdf` with output directory `/tmp/out` yields
`/tmp/out/converted_MONA_2_mend.sdf`. -/
theorem c9_output_path (dir name d : String)
    (records : List (List String)) (initial : Option String)
    (h1 : ∀ c ∈ name.data, c ≠ '/')
    (hd0 : d ≠ "") (hd1 : d.data.getLastD ' ' ≠ '/') :
    (convert_sdflike_to_sdf (dir ++ "/" ++ name) d records
        initial).save_sdf_to_path =
      d ++ "/" ++ ("converted_" ++ name) := by
  show path_join d ("converted_" ++ (path_split (dir ++ "/" ++ name)).2) = _
  rw [path_split_snd dir name h1]
  apply path_join_no_slash
  · rw [String.data_append,
      (by decide : ("converted_" : String).data =
        ['c', 'o', 'n', 'v', 'e', 'r', 't', 'e', 'd', '_'])]
    simp
  · exact hd0
  · exact hd1

/-- C9 (witness): the concrete scenario from the spec. -/
theorem c9_output_path_witness :
    (convert_sdflike_to_sdf ("testdata" ++ "/" ++ "MONA_2_mend.sdf")
        "/tmp/out" [] none).save_sdf_to_path =
      "/tmp/out" ++ "/" ++ ("converted_" ++ "MONA_2_mend.sdf") :=
  c9_output_path "testdata" "MONA_2_mend.sdf" "/tmp/out" [] none
    (by decide) (by decide) (by decide)

end MakeStandardSdf
